import Mathlib

/-!
Verification of the genai_platform routing and resolution core.

The Python sources are shallowly embedded as executable Lean definitions:

* Python `dict` objects become association lists (`PyDict`) with
  insertion-order semantics: updating an existing key keeps its position,
  a new key is appended at the end, and iteration follows list order.
  This matches CPython dictionaries, which the source relies on
  (`services/models/service.py` builds `models_by_name` this way and
  `services/sessions/store.py` iterates `self._memories.items()`).
* Impure inputs (wall-clock timestamps, generated UUIDs) are passed as
  explicit arguments.
* gRPC handler outcomes (`context.set_code` + returned/raised value)
  become the `RpcOutcome` sum type.
* JSON-serializable memory values are represented by their JSON
  serialization as a `String`; equality of representations is exactly
  deep equality including list ordering.
-/

namespace GenaiPlatform

/-- Association-list model of a Python `dict`: key lookup returns the first
(and, in any state a real dict can reach, the only) binding. -/
def PyDict.get {κ α : Type} [DecidableEq κ] : List (κ × α) → κ → Option α
  | [], _ => none
  | p :: rest, k => if p.1 = k then some p.2 else PyDict.get rest k

/-- Python `d[k] = v`: replace the value of an existing key in place,
otherwise append the new binding at the end. -/
def PyDict.insert {κ α : Type} [DecidableEq κ] : List (κ × α) → κ → α → List (κ × α)
  | [], k, v => [(k, v)]
  | p :: rest, k, v => if p.1 = k then (p.1, v) :: rest else p :: PyDict.insert rest k v

/-- Python `del d[k]` (total: removes every binding of the key; a real dict
holds at most one). -/
def PyDict.remove {κ α : Type} [DecidableEq κ] (m : List (κ × α)) (k : κ) : List (κ × α) :=
  m.filter (fun p => p.1 ≠ k)

/-- The keys of a dict in iteration order. -/
def PyDict.keys {κ α : Type} (m : List (κ × α)) : List κ :=
  m.map Prod.fst

theorem PyDict.get_insert_self {κ α : Type} [DecidableEq κ] (m : List (κ × α)) (k : κ) (v : α) :
    PyDict.get (PyDict.insert m k v) k = some v := by
  induction m with
  | nil => simp [PyDict.insert, PyDict.get]
  | cons p rest ih =>
    by_cases h : p.1 = k
    · simp [PyDict.insert, PyDict.get, h]
    · simp [PyDict.insert, PyDict.get, h, ih]

theorem PyDict.get_insert_ne {κ α : Type} [DecidableEq κ] (m : List (κ × α)) (k k' : κ) (v : α)
    (h : k' ≠ k) : PyDict.get (PyDict.insert m k v) k' = PyDict.get m k' := by
  have hkk : ¬k = k' := fun hh => h hh.symm
  induction m with
  | nil => simp [PyDict.insert, PyDict.get, hkk]
  | cons p rest ih =>
    by_cases hp : p.1 = k
    · simp [PyDict.insert, PyDict.get, hp, hkk]
    · by_cases hp' : p.1 = k'
      · simp [PyDict.insert, PyDict.get, hp, hp', h]
      · simp [PyDict.insert, PyDict.get, hp, hp', ih]

theorem PyDict.get_remove_self {κ α : Type} [DecidableEq κ] (m : List (κ × α)) (k : κ) :
    PyDict.get (PyDict.remove m k) k = none := by
  induction m with
  | nil => simp [PyDict.remove, PyDict.get]
  | cons p rest ih =>
    by_cases h : p.1 = k
    · simpa [PyDict.remove, PyDict.get, h] using ih
    · simpa [PyDict.remove, PyDict.get, h] using ih

theorem PyDict.get_remove_ne {κ α : Type} [DecidableEq κ] (m : List (κ × α)) (k k' : κ)
    (h : k' ≠ k) : PyDict.get (PyDict.remove m k) k' = PyDict.get m k' := by
  have hk : ¬k = k' := fun hh => h hh.symm
  induction m with
  | nil => simp [PyDict.remove, PyDict.get]
  | cons p rest ih =>
    by_cases hp : p.1 = k
    · have hp' : ¬p.1 = k' := by
        intro hh
        exact h (hh ▸ hp ▸ rfl)
      simpa [PyDict.remove, List.filter_cons, PyDict.get, hp, hp', hk] using ih
    · by_cases hp' : p.1 = k'
      · simp [PyDict.remove, List.filter_cons, PyDict.get, hp, hp', h]
      · simpa [PyDict.remove, List.filter_cons, PyDict.get, hp, hp'] using ih

theorem PyDict.get_eq_none_of_not_mem_keys {κ α : Type} [DecidableEq κ]
    (m : List (κ × α)) (k : κ) (h : k ∉ PyDict.keys m) : PyDict.get m k = none := by
  induction m with
  | nil => simp [PyDict.get]
  | cons p rest ih =>
    simp only [PyDict.keys, List.map_cons, List.mem_cons] at h
    push_neg at h
    have h1 : ¬p.1 = k := fun hh => h.1 hh.symm
    simp [PyDict.get, h1, ih (by simpa [PyDict.keys] using h.2)]

theorem PyDict.keys_insert {κ α : Type} [DecidableEq κ] (m : List (κ × α)) (k : κ) (v : α) :
    PyDict.keys (PyDict.insert m k v) =
      if k ∈ PyDict.keys m then PyDict.keys m else PyDict.keys m ++ [k] := by
  induction m with
  | nil => simp [PyDict.insert, PyDict.keys]
  | cons p rest ih =>
    by_cases h : p.1 = k
    · simp [PyDict.insert, PyDict.keys, h]
    · have hk : ¬k = p.1 := fun hh => h hh.symm
      by_cases hmem : k ∈ PyDict.keys rest
      · simp only [PyDict.keys, PyDict.insert, if_neg h, List.map_cons, List.mem_cons, hk,
          false_or]
        simp only [PyDict.keys] at ih hmem
        simp [ih, hmem]
      · simp only [PyDict.keys, PyDict.insert, if_neg h, List.map_cons, List.mem_cons, hk,
          false_or]
        simp only [PyDict.keys] at ih hmem
        simp [ih, hmem]

theorem PyDict.nodup_keys_insert {κ α : Type} [DecidableEq κ] (m : List (κ × α)) (k : κ) (v : α)
    (h : (PyDict.keys m).Nodup) : (PyDict.keys (PyDict.insert m k v)).Nodup := by
  rw [PyDict.keys_insert]
  by_cases hmem : k ∈ PyDict.keys m
  · simpa [hmem] using h
  · rw [if_neg hmem]
    refine List.Nodup.append h (List.nodup_singleton k) ?_
    intro a ha hb
    simp only [List.mem_singleton] at hb
    exact hmem (hb ▸ ha)

/-- The value of the last binding of key `k` in a pair list, if any.
This is what a loop of `d[p.1] = p.2` assignments leaves at key `k`. -/
def PyDict.lastVal {κ α : Type} [DecidableEq κ] : List (κ × α) → κ → Option α
  | [], _ => none
  | p :: rest, k =>
    match PyDict.lastVal rest k with
    | some v => some v
    | none => if p.1 = k then some p.2 else none

theorem PyDict.get_foldl_insert {κ α : Type} [DecidableEq κ] (l : List (κ × α)) (k : κ) :
    ∀ m : List (κ × α),
      PyDict.get (l.foldl (fun acc p => PyDict.insert acc p.1 p.2) m) k =
        match PyDict.lastVal l k with
        | some v => some v
        | none => PyDict.get m k := by
  induction l with
  | nil => intro m; simp [PyDict.lastVal]
  | cons p rest ih =>
    intro m
    simp only [List.foldl_cons, PyDict.lastVal]
    rw [ih]
    cases hrest : PyDict.lastVal rest k with
    | some v => simp
    | none =>
      by_cases hp : p.1 = k
      · subst hp
        simp [PyDict.get_insert_self]
      · simp [hp, PyDict.get_insert_ne m p.1 k p.2 (fun hh => hp hh.symm)]

theorem PyDict.lastVal_eq_none_of_not_mem {κ α : Type} [DecidableEq κ] (l : List (κ × α)) (k : κ)
    (h : k ∉ PyDict.keys l) : PyDict.lastVal l k = none := by
  induction l with
  | nil => simp [PyDict.lastVal]
  | cons p rest ih =>
    simp only [PyDict.keys, List.map_cons, List.mem_cons] at h
    push_neg at h
    have h1 : ¬p.1 = k := fun hh => h.1 hh.symm
    have h2 := ih (by simpa [PyDict.keys] using h.2)
    simp [PyDict.lastVal, h1, h2]

theorem PyDict.lastVal_isSome_of_mem {κ α : Type} [DecidableEq κ] (l : List (κ × α)) (k : κ)
    (h : k ∈ PyDict.keys l) : (PyDict.lastVal l k).isSome = true := by
  induction l with
  | nil => simp [PyDict.keys] at h
  | cons p rest ih =>
    simp only [PyDict.keys, List.map_cons, List.mem_cons] at h
    simp only [PyDict.lastVal]
    cases hrest : PyDict.lastVal rest k with
    | some v => simp
    | none =>
      rcases h with h | h
      · simp [h.symm]
      · have := ih (by simpa [PyDict.keys] using h)
        rw [hrest] at this
        simp at this

theorem PyDict.mem_of_get_eq_some {κ α : Type} [DecidableEq κ] (m : List (κ × α)) (k : κ) (v : α)
    (h : PyDict.get m k = some v) : (k, v) ∈ m := by
  induction m with
  | nil => simp [PyDict.get] at h
  | cons p rest ih =>
    by_cases hp : p.1 = k
    · simp only [PyDict.get, if_pos hp, Option.some.injEq] at h
      have : p = (k, v) := by
        cases p
        simp_all
      simp [this]
    · simp only [PyDict.get, if_neg hp] at h
      exact List.mem_cons_of_mem _ (ih h)

theorem PyDict.nodup_keys_foldl_insert {κ α : Type} [DecidableEq κ] (l : List (κ × α)) :
    ∀ m : List (κ × α), (PyDict.keys m).Nodup →
      (PyDict.keys (l.foldl (fun acc q => PyDict.insert acc q.1 q.2) m)).Nodup := by
  induction l with
  | nil => intro m hm; simpa using hm
  | cons q rest ih =>
    intro m hm
    exact ih (PyDict.insert m q.1 q.2) (PyDict.nodup_keys_insert m q.1 q.2 hm)

/-- gRPC status codes used by the platform (`grpc.StatusCode`). -/
inductive StatusCode where
  | ok
  | invalidArgument
  | notFound
  | failedPrecondition
  | internal
deriving DecidableEq, Repr

/-- Outcome of a gRPC handler: either a successful response, or
`context.set_code c` + `context.set_details d` (with the error either raised
or returned as an empty message). -/
inductive RpcOutcome (α : Type) where
  | ok (a : α)
  | err (code : StatusCode) (details : String)
deriving DecidableEq, Repr

/-- Whether an outcome is an `INTERNAL` error. -/
def RpcOutcome.isInternal {α : Type} : RpcOutcome α → Bool
  | .err .internal _ => true
  | _ => false

/-- The status code of an outcome, if it is an error. -/
def RpcOutcome.errCode {α : Type} : RpcOutcome α → Option StatusCode
  | .ok _ => none
  | .err c _ => some c

/-- `services/gateway/registry.py::ServiceRegistry`: platform services map a
service name to an ordered list of addresses; workflows map an API path to
addresses the same way. -/
structure ServiceRegistry where
  platform_services : List (String × List String)
  workflows : List (String × List String)
deriving DecidableEq, Repr

/-- `ServiceRegistry.register_platform_service`: idempotent append of an
address under a service name. -/
def ServiceRegistry.register_platform_service (reg : ServiceRegistry)
    (service_name address : String) : ServiceRegistry :=
  let addrs := (PyDict.get reg.platform_services service_name).getD []
  if address ∈ addrs then reg
  else { reg with platform_services := PyDict.insert reg.platform_services service_name (addrs ++ [address]) }

/-- `ServiceRegistry.get_platform_service_address`: first registered address,
or the `ValueError` message the Python code raises when none exists. -/
def ServiceRegistry.get_platform_service_address (reg : ServiceRegistry)
    (service_name : String) : Except String String :=
  match (PyDict.get reg.platform_services service_name).getD [] with
  | [] => .error s!"Platform service \x27{service_name}\x27 not registered"
  | a :: _ => .ok a

/-- What the backend at an address does with a forwarded call
(`method(request)` in `GenericProxy._forward_request`): it returns a
response, raises a `grpc.RpcError` carrying a status code and details, or
raises some other local exception whose `str` is `msg`. -/
inductive BackendOutcome (Resp : Type) where
  | response (r : Resp)
  | rpcError (code : StatusCode) (details : String)
  | failure (msg : String)
deriving DecidableEq, Repr

/-- A backend environment: the behavior of whatever is listening at each
address, per method name and request. -/
def Backend (Req Resp : Type) : Type :=
  String → String → Req → BackendOutcome Resp

/-- `GenericProxy._forward_request`: resolve the address via the registry,
call the same method on the backend stub, and return its response.  A
`grpc.RpcError` from the backend is mirrored verbatim
(`context.set_code(e.code()); context.set_details(e.details())`); any other
local exception — including the registry's `ValueError` for an unregistered
service — is classified `INTERNAL` with `str(e)` as details. -/
def GenericProxy.forward_request {Req Resp : Type} (reg : ServiceRegistry)
    (backend : Backend Req Resp) (service_name method_name : String) (request : Req) :
    RpcOutcome Resp :=
  match reg.get_platform_service_address service_name with
  | .error msg => .err .internal msg
  | .ok addr =>
    match backend addr method_name request with
    | .response r => .ok r
    | .rpcError c d => .err c d
    | .failure m => .err .internal m

/-- `GenericServiceProxy.__getattribute__`'s `handler`: reject a missing (or
empty, Python truthiness) `x-target-service` tag with `INVALID_ARGUMENT`;
reject a tag with no stub factory with `NOT_FOUND`; otherwise forward the
intercepted method name and request unchanged through
`GenericProxy._forward_request`.  `stub_services` lists the keys of
`GenericProxy._stub_factories` (in the source, exactly `["sessions"]`). -/
def GenericServiceProxy.handler {Req Resp : Type} (stub_services : List String)
    (reg : ServiceRegistry) (backend : Backend Req Resp) (method_name : String)
    (target_service : Option String) (request : Req) : RpcOutcome Resp :=
  match target_service with
  | none => .err .invalidArgument "Missing x-target-service metadata"
  | some svc =>
    if svc = "" then .err .invalidArgument "Missing x-target-service metadata"
    else if svc ∈ stub_services then
      GenericProxy.forward_request reg backend svc method_name request
    else .err .notFound s!"Service \x27{svc}\x27 not found"

/-- `models.proto` `ModelCapabilities` (schema reconstructed from its uses in
`services/models`): context window plus vision/tool support flags. -/
structure ModelCapabilities where
  context_window : Nat
  supports_vision : Bool
  supports_tools : Bool
deriving DecidableEq, Repr

/-- `ModelInfo`: the read-only shape a provider adapter reports for each of
its built-in models. -/
structure ModelInfo where
  name : String
  provider : String
  capabilities : ModelCapabilities
deriving DecidableEq, Repr

/-- `RegisteredModel`: an explicit registration in
`services/models/store.py::ModelRegistry`. -/
structure RegisteredModel where
  name : String
  endpoint : String
  capabilities : ModelCapabilities
  health_check : String
  status : String
  registered_at : String
  provider : String
  adapter_type : String
deriving DecidableEq, Repr

/-- A configured provider adapter, abstracted to the capability the
resolution logic consumes: `get_supported_models()`.  (The vendor-call
methods `chat`/`chat_stream` are opaque effects; resolution only ever picks
which adapter to delegate to.) -/
structure ProviderAdapter where
  supported_models : List ModelInfo
deriving DecidableEq, Repr

/-- `ModelRegistry.register` (`services/models/store.py`): unconditionally
overwrite `self._models[name]`.  `adapter_type` defaults to "openai" and
`provider` to "custom" in the servicer; `registered_at` is the wall clock,
passed explicitly. -/
def ModelRegistry.register (models : List (String × RegisteredModel))
    (name endpoint : String) (capabilities : ModelCapabilities) (health_check : String)
    (adapter_type : String) (provider : Option String) (registered_at : String) :
    List (String × RegisteredModel) × RegisteredModel :=
  let model : RegisteredModel :=
    { name := name
      endpoint := endpoint
      capabilities := capabilities
      health_check := health_check
      status := "provisioning"
      registered_at := registered_at
      provider := provider.getD "custom"
      adapter_type := adapter_type }
  (PyDict.insert models name model, model)

/-- `models.proto` `PromptMetadata`. -/
structure PromptMetadata where
  author : String
  reviewed_by : String
  tags : List String
deriving DecidableEq, Repr, Inhabited

/-- `models.proto` `Prompt` record as stored by
`services/models/store.py::PromptRegistry`. -/
structure PromptRec where
  name : String
  version : Nat
  content : String
  metadata : PromptMetadata
  created_at : String
deriving DecidableEq, Repr

/-- The in-memory state of `services/models/service.py::ModelService`:
configured provider adapters keyed by identifier (dict order = configuration
order: "openai" then "anthropic" when both keys are set), the explicit model
registry, and the prompt registry's per-name version lists. -/
structure ModelServiceState where
  providers : List (String × ProviderAdapter)
  model_registry : List (String × RegisteredModel)
  prompts : List (String × List PromptRec)
deriving Repr

/-- `ModelService._resolve_provider`: an explicit registration selects the
configured adapter stored under its `adapter_type` key and never falls
through; otherwise the first adapter (in configuration order) that
auto-discovers the exact name wins; otherwise `None`. -/
def ModelService.resolve_provider (st : ModelServiceState) (model_name : String) :
    Option ProviderAdapter :=
  match PyDict.get st.model_registry model_name with
  | some registered => PyDict.get st.providers registered.adapter_type
  | none =>
    (st.providers.find? fun p =>
      p.2.supported_models.any fun mi => mi.name = model_name).map Prod.snd

/-- `ModelService._get_default_model`: "gpt-4o" when the openai adapter is
configured, else "claude-sonnet-4-5" when anthropic is, else none. -/
def ModelService.get_default_model (st : ModelServiceState) : Option String :=
  if (PyDict.get st.providers "openai").isSome then some "gpt-4o"
  else if (PyDict.get st.providers "anthropic").isSome then some "claude-sonnet-4-5"
  else none

/-- The `ModelInfo` view of an explicit registration, as `ListModels`
constructs it (`models_pb2.ModelInfo(name=..., provider=..., capabilities=...)`). -/
def registeredInfo (r : RegisteredModel) : ModelInfo :=
  { name := r.name, provider := r.provider, capabilities := r.capabilities }

/-- `ModelService.ListModels`: a name-keyed dict is filled with every
adapter's auto-discovered models, then overwritten with the explicit
registrations (`registry wins`), and its values are returned. -/
def ModelService.ListModels (st : ModelServiceState) : List ModelInfo :=
  let models_by_name : List (String × ModelInfo) :=
    st.providers.foldl
      (fun acc p =>
        p.2.supported_models.foldl (fun acc2 mi => PyDict.insert acc2 mi.name mi) acc)
      []
  let models_by_name :=
    st.model_registry.foldl
      (fun acc p => PyDict.insert acc p.2.name (registeredInfo p.2))
      models_by_name
  models_by_name.map Prod.snd

/-- `ModelService.GetModelCapabilities`: explicit registrations first, then a
scan of the adapters' auto-discovered models, else `NOT_FOUND`. -/
def ModelService.GetModelCapabilities (st : ModelServiceState) (model : String) :
    RpcOutcome ModelCapabilities :=
  match PyDict.get st.model_registry model with
  | some registered => .ok registered.capabilities
  | none =>
    match (st.providers.flatMap fun p => p.2.supported_models).find?
        (fun mi => mi.name = model) with
    | some mi => .ok mi.capabilities
    | none => .err .notFound s!"Model \x27{model}\x27 not found"

/-- `PromptRegistry.register`: the new version number is the current count
for that name plus one; the record is appended to the name's list
(`setdefault(name, []).append(prompt)`). -/
def PromptRegistry.register (prompts : List (String × List PromptRec))
    (name content : String) (metadata : Option PromptMetadata) (created_at : String) :
    List (String × List PromptRec) × PromptRec :=
  let versions := (PyDict.get prompts name).getD []
  let prompt : PromptRec :=
    { name := name
      version := versions.length + 1
      content := content
      metadata := metadata.getD default
      created_at := created_at }
  (PyDict.insert prompts name (versions ++ [prompt]), prompt)

/-- `PromptRegistry.get`: no versions (unknown name) → `None`; version 0
(the proto default / "latest") → last appended; 1-based index within range →
that registration; otherwise `None`.  The proto version field is not under
`src/`; per the spec it is the non-negative "0 means latest" selector, so it
is modeled as `Nat`. -/
def PromptRegistry.get (prompts : List (String × List PromptRec))
    (name : String) (version : Nat) : Option PromptRec :=
  let versions := (PyDict.get prompts name).getD []
  if versions = [] then none
  else if version = 0 then versions.getLast?
  else if version ≤ versions.length then versions[version - 1]?
  else none

/-- `ModelService.GetPrompt`: `NOT_FOUND` when the registry returns `None`. -/
def ModelService.GetPrompt (st : ModelServiceState) (name : String) (version : Nat) :
    RpcOutcome PromptRec :=
  match PromptRegistry.get st.prompts name version with
  | none => .err .notFound s!"Prompt \x27{name}\x27 not found"
  | some p => .ok p

/-- `models.proto` `ChatRequest`, with the payload types the resolution core
never inspects (config numbers, chat messages, tool definitions, response
formats) kept as type parameters.  `model` and `system_prompt_name` are
plain proto strings whose empty value is "unset". -/
structure ChatRequest (Cfg Msg Tool Fmt : Type) where
  model : String
  system_prompt_name : String
  messages : List Msg
  config : Option Cfg
  tools : List Tool
  response_format : Option Fmt

/-- The observable result of `ModelService.Chat`: an error set on the
context, or a delegation to the resolved adapter's `chat` with exactly these
arguments. -/
inductive ChatOutcome (Cfg Msg Tool Fmt : Type) where
  | error (code : StatusCode) (details : String)
  | dispatched (adapter : ProviderAdapter) (model : String) (messages : List Msg)
      (config : Cfg) (tools : Option (List Tool)) (response_format : Option Fmt)
      (system_prompt : Option String)

/-- `ModelService._resolve_system_prompt`: an unset name resolves to no
system prompt; a set name is looked up at the latest version and a miss is a
`NOT_FOUND` error. -/
def ModelService.resolve_system_prompt (st : ModelServiceState) (name : String) :
    Except (StatusCode × String) (Option String) :=
  if name = "" then .ok none
  else
    match PromptRegistry.get st.prompts name 0 with
    | none => .error (.notFound, s!"Prompt \x27{name}\x27 not found")
    | some p => .ok (some p.content)

/-- `ModelService.Chat` up to the delegation point: pick the model name (the
request's, or the deterministic default), resolve the provider adapter,
resolve the optional named system prompt, apply the request config or the
documented default, pass tools (`None` when the repeated field is empty) and
response format through.  `default_config` stands for the literal
`ChatConfig(temperature=0.7, max_tokens=512, top_p=1.0)` the source builds;
its numeric payload is opaque here. -/
def ModelService.Chat {Cfg Msg Tool Fmt : Type} (st : ModelServiceState)
    (req : ChatRequest Cfg Msg Tool Fmt) (default_config : Cfg) :
    ChatOutcome Cfg Msg Tool Fmt :=
  let model_name := if req.model = "" then ModelService.get_default_model st else some req.model
  match model_name with
  | none => .error .failedPrecondition "No model specified and no providers configured."
  | some mn =>
    match ModelService.resolve_provider st mn with
    | none => .error .notFound s!"No provider found for model \x27{mn}\x27."
    | some provider =>
      match ModelService.resolve_system_prompt st req.system_prompt_name with
      | .error e => .error e.1 e.2
      | .ok system_prompt =>
        let config := req.config.getD default_config
        let tools := if req.tools.isEmpty then none else some req.tools
        .dispatched provider mn req.messages config tools req.response_format system_prompt

/-- `sessions.proto` `MessageFunction`. -/
structure MessageFunction where
  name : String
  arguments : String
deriving DecidableEq, Repr

/-- `sessions.proto` `MessageToolCall`. -/
structure MessageToolCall where
  id : String
  type : String
  function : MessageFunction
deriving DecidableEq, Repr

/-- `sessions.proto` `Message`: one entry of a session's insertion-ordered
log.  Optional proto fields are `Option`s. -/
structure Message where
  role : String
  content : Option String
  tool_calls : List MessageToolCall
  tool_call_id : Option String
  name : Option String
  timestamp : Nat
deriving DecidableEq, Repr

/-- A session record (`{session_id, user_id, created_at, updated_at}`),
timestamps in epoch milliseconds. -/
structure SessionRec where
  session_id : String
  user_id : String
  created_at : Nat
  updated_at : Nat
deriving DecidableEq, Repr

/-- The state of `services/sessions/store.py::InMemorySessionStorage`:
`_sessions`, `_messages` (session_id → log), and `_memories` keyed by the
`(user_id, key, session_id-or-empty)` triple.  Values are their JSON
serializations. -/
structure InMemoryStorage where
  sessions : List (String × SessionRec)
  messages : List (String × List Message)
  memories : List ((String × String × String) × String)
deriving DecidableEq, Repr

/-- `InMemorySessionStorage.get_or_create_session`: a supplied, non-empty,
known id refreshes `updated_at` and returns the stored record; otherwise a
record is created under the supplied id, or under the generated `fresh_id`
when the id is absent or empty (Python truthiness of `session_id`).  `now`
and `fresh_id` stand for the wall clock and `uuid.uuid4()`. -/
def InMemorySessionStorage.get_or_create_session (st : InMemoryStorage) (user_id : String)
    (session_id : Option String) (now : Nat) (fresh_id : String) :
    InMemoryStorage × SessionRec :=
  let sid := session_id.getD ""
  match (if sid = "" then none else PyDict.get st.sessions sid) with
  | some session =>
    let updated := { session with updated_at := now }
    ({ st with sessions := PyDict.insert st.sessions sid updated }, updated)
  | none =>
    let new_session_id := if sid = "" then fresh_id else sid
    let session : SessionRec :=
      { session_id := new_session_id, user_id := user_id, created_at := now, updated_at := now }
    ({ st with
        sessions := PyDict.insert st.sessions new_session_id session
        messages := PyDict.insert st.messages new_session_id [] },
      session)

/-- `InMemorySessionStorage.add_messages`: extend the session's log (creating
an empty log first when the id is unknown — the code never fails), refresh
`updated_at` when a session record exists, and return the number of messages
given. -/
def InMemorySessionStorage.add_messages (st : InMemoryStorage) (session_id : String)
    (messages : List Message) (now : Nat) : InMemoryStorage × Nat :=
  let log := (PyDict.get st.messages session_id).getD []
  let messages2 := PyDict.insert st.messages session_id (log ++ messages)
  let sessions2 :=
    match PyDict.get st.sessions session_id with
    | some session => PyDict.insert st.sessions session_id { session with updated_at := now }
    | none => st.sessions
  ({ st with messages := messages2, sessions := sessions2 }, messages.length)

/-- `InMemorySessionStorage.get_messages`: pagination by Python slicing
`messages[offset or 0 : (offset or 0) + limit if limit else None]`; the
returned total is always the full log's length.  A `limit` of `0` is falsy
in Python and therefore behaves like no limit. -/
def InMemorySessionStorage.get_messages (st : InMemoryStorage) (session_id : String)
    (limit offset : Option Nat) : List Message × Nat :=
  match PyDict.get st.messages session_id with
  | none => ([], 0)
  | some msgs =>
    let start := offset.getD 0
    let page :=
      match limit with
      | none => msgs.drop start
      | some l => if l = 0 then msgs.drop start else (msgs.drop start).take l
    (page, msgs.length)

/-- `InMemorySessionStorage.delete_session`: drop the session record and its
log when the session exists; report whether it did.  `_memories` is never
touched. -/
def InMemorySessionStorage.delete_session (st : InMemoryStorage) (session_id : String) :
    InMemoryStorage × Bool :=
  if (PyDict.get st.sessions session_id).isSome then
    ({ st with
        sessions := PyDict.remove st.sessions session_id
        messages := PyDict.remove st.messages session_id },
      true)
  else (st, false)

/-- `InMemorySessionStorage.save_memory`: upsert at the
`(user_id, key, session_id or '')` triple. -/
def InMemorySessionStorage.save_memory (st : InMemoryStorage) (user_id key value : String)
    (session_id : Option String) : InMemoryStorage × Bool :=
  let memory_key := (user_id, key, session_id.getD "")
  ({ st with memories := PyDict.insert st.memories memory_key value }, true)

/-- Python `if filt and field != filt: continue`: an entry is skipped exactly
when the filter is truthy (present and non-empty) and the field differs. -/
def filterSkip (filt : Option String) (field : String) : Bool :=
  match filt with
  | none => false
  | some f => if f = "" then false else if field = f then false else true

/-- The per-entry filter of `InMemorySessionStorage.get_memory`: the entry's
user must equal `user_id`; the key and session filters skip only when
truthy. -/
def memPass (user_id : String) (key session_id : Option String)
    (e : (String × String × String) × String) : Bool :=
  if e.1.1 = user_id then
    if filterSkip key e.1.2.1 then false
    else if filterSkip session_id e.1.2.2 then false
    else true
  else false

/-- `InMemorySessionStorage.get_memory`: iterate `_memories` in insertion
order, keep entries passing the user/key/session filters, and build a result
dict keyed by the entry's key alone — a later entry overwrites an earlier
one with the same key. -/
def InMemorySessionStorage.get_memory (st : InMemoryStorage) (user_id : String)
    (key session_id : Option String) : List (String × String) :=
  st.memories.foldl
    (fun results e =>
      if memPass user_id key session_id e then PyDict.insert results e.1.2.1 e.2 else results)
    []

/-- State of the `PostgresSessionStorage` tables relevant to the claims:
session rows, message rows with their auto-incrementing serial id, and the
next serial value. -/
structure PgState where
  sessions : List SessionRec
  messages : List (Nat × String × Message)
  next_id : Nat
deriving DecidableEq, Repr

/-- Rows produced by the insert loop of `PostgresSessionStorage.add_messages`,
with consecutive serial ids. -/
def pgInsertRows (next_id : Nat) (session_id : String) : List Message → List (Nat × String × Message)
  | [] => []
  | m :: rest => (next_id, session_id, m) :: pgInsertRows (next_id + 1) session_id rest

/-- `PostgresSessionStorage.get_or_create_session`: when a truthy
`session_id` matches a row, that row is returned as stored — the SELECT
branch performs no UPDATE, so `updated_at` is NOT refreshed.  Otherwise the
INSERT ... ON CONFLICT DO UPDATE SET updated_at RETURNING * path runs with
`session_id or uuid4()`. -/
def PostgresSessionStorage.get_or_create_session (st : PgState) (user_id : String)
    (session_id : Option String) (now : Nat) (fresh_id : String) : PgState × SessionRec :=
  let sid := session_id.getD ""
  match (if sid = "" then none else st.sessions.find? fun r => r.session_id = sid) with
  | some row => (st, row)
  | none =>
    let new_session_id := if sid = "" then fresh_id else sid
    match st.sessions.find? (fun r => r.session_id = new_session_id) with
    | some row =>
      let updated := { row with updated_at := now }
      ({ st with sessions :=
          st.sessions.map fun r => if r.session_id = new_session_id then updated else r },
        updated)
    | none =>
      let row : SessionRec :=
        { session_id := new_session_id, user_id := user_id, created_at := now, updated_at := now }
      ({ st with sessions := st.sessions ++ [row] }, row)

/-- `PostgresSessionStorage.add_messages`: each INSERT must satisfy the
foreign key `messages.session_id → sessions.session_id`, so a non-empty
batch for an unknown session raises (the driver's error text is abstracted
to a fixed string); otherwise the rows are appended with serial ids, the
session's `updated_at` is set (matching zero rows when the session is
unknown and the batch empty), and the batch length is returned. -/
def PostgresSessionStorage.add_messages (st : PgState) (session_id : String)
    (messages : List Message) (now : Nat) : Except String (PgState × Nat) :=
  if messages.isEmpty || st.sessions.any (fun r => r.session_id = session_id) then
    .ok
      ({ st with
          messages := st.messages ++ pgInsertRows st.next_id session_id messages
          next_id := st.next_id + messages.length
          sessions :=
            st.sessions.map fun r =>
              if r.session_id = session_id then { r with updated_at := now } else r },
        messages.length)
  else .error "violates foreign key constraint on sessions"

/-- `SessionService.AddMessages` over the in-memory backend: the storage
call cannot raise, so the handler always reports success with the count. -/
def SessionService.AddMessagesInMemory (st : InMemoryStorage) (session_id : String)
    (messages : List Message) (now : Nat) : InMemoryStorage × RpcOutcome (Bool × Nat) :=
  let r := InMemorySessionStorage.add_messages st session_id messages now
  (r.1, .ok (true, r.2))

/-- `SessionService.AddMessages` over the Postgres backend: a storage
exception is converted to `INTERNAL` with a descriptive message. -/
def SessionService.AddMessagesPostgres (st : PgState) (session_id : String)
    (messages : List Message) (now : Nat) : PgState × RpcOutcome (Bool × Nat) :=
  match PostgresSessionStorage.add_messages st session_id messages now with
  | .ok (st2, n) => (st2, .ok (true, n))
  | .error e => (st, .err .internal ("Failed to add messages: " ++ e))

/-- C1, corrected.  The amended claim: a forwarded call with no (or an
empty) x-target-service tag fails with InvalidArgument; a tag naming a
service with no stub factory (an unsupported service) fails with NotFound; a
tag naming a supported service that has no registry address fails with
Internal carrying the registry's ValueError text (NOT with NotFound as the
original claim stated); and a tag naming a supported, registered service is
forwarded under the same method name to the first registered address, whose
response is returned and whose gRPC error is propagated with the same code
and details, other local failures mapping to Internal. -/
theorem C1_amended_proxy_routing {Req Resp : Type} (stub_services : List String)
    (reg : ServiceRegistry) (backend : Backend Req Resp) (method_name : String)
    (target_service : Option String) (request : Req) :
    ((target_service = none ∨ target_service = some "") →
      GenericServiceProxy.handler stub_services reg backend method_name target_service request
        = .err .invalidArgument "Missing x-target-service metadata")
    ∧ (∀ svc, target_service = some svc → svc ≠ "" → svc ∉ stub_services →
        GenericServiceProxy.handler stub_services reg backend method_name target_service request
          = .err .notFound s!"Service \x27{svc}\x27 not found")
    ∧ (∀ svc msg, target_service = some svc → svc ≠ "" → svc ∈ stub_services →
        reg.get_platform_service_address svc = .error msg →
        GenericServiceProxy.handler stub_services reg backend method_name target_service request
          = .err .internal msg)
    ∧ (∀ svc addr, target_service = some svc → svc ≠ "" → svc ∈ stub_services →
        reg.get_platform_service_address svc = .ok addr →
        ((∀ r, backend addr method_name request = .response r →
            GenericServiceProxy.handler stub_services reg backend method_name target_service request
              = .ok r)
          ∧ (∀ c d, backend addr method_name request = .rpcError c d →
              GenericServiceProxy.handler stub_services reg backend method_name target_service request
                = .err c d)
          ∧ (∀ m, backend addr method_name request = .failure m →
              GenericServiceProxy.handler stub_services reg backend method_name target_service request
                = .err .internal m))) := by
  refine ⟨?_, ?_, ?_, ?_⟩
  · rintro (h | h) <;> subst h <;> simp [GenericServiceProxy.handler]
  · rintro svc rfl hne hnot
    simp [GenericServiceProxy.handler, hne, hnot]
  · rintro svc msg rfl hne hmem herr
    simp [GenericServiceProxy.handler, hne, hmem, GenericProxy.forward_request, herr]
  · rintro svc addr rfl hne hmem hok
    refine ⟨?_, ?_, ?_⟩
    · intro r hb
      simp [GenericServiceProxy.handler, hne, hmem, GenericProxy.forward_request, hok, hb]
    · intro c d hb
      simp [GenericServiceProxy.handler, hne, hmem, GenericProxy.forward_request, hok, hb]
    · intro m hb
      simp [GenericServiceProxy.handler, hne, hmem, GenericProxy.forward_request, hok, hb]

/-- C1, counterexample to the original claim: "sessions" has a stub factory
(it is supported) but the registry has no address for it, and the proxy
classifies the forwarding failure as Internal — the claim required NotFound
for a tag naming an unregistered service. -/
theorem C1_counterexample_unregistered_supported_is_internal :
    GenericServiceProxy.handler ["sessions"] ⟨[], []⟩
        (fun _ _ _ => BackendOutcome.response 0 : Backend Nat Nat) "GetMessages"
        (some "sessions") 0
      = .err .internal "Platform service \x27sessions\x27 not registered"
    ∧ StatusCode.internal ≠ StatusCode.notFound := by
  exact ⟨rfl, by decide⟩

/-- C1 witness: the amended theorem applied at concrete inputs — a missing
tag, an unsupported tag, and a registered "sessions" call whose backend
error is propagated verbatim. -/
theorem C1_amended_proxy_routing_witness :
    GenericServiceProxy.handler ["sessions"] ⟨[("sessions", ["localhost:50052"])], []⟩
        (fun _ _ _ => BackendOutcome.rpcError StatusCode.notFound "session missing" :
          Backend Nat Nat) "GetMessages" none 0
      = .err .invalidArgument "Missing x-target-service metadata"
    ∧ GenericServiceProxy.handler ["sessions"] ⟨[("sessions", ["localhost:50052"])], []⟩
        (fun _ _ _ => BackendOutcome.rpcError StatusCode.notFound "session missing" :
          Backend Nat Nat) "GetMessages" (some "models") 0
      = .err .notFound "Service \x27models\x27 not found"
    ∧ GenericServiceProxy.handler ["sessions"] ⟨[("sessions", ["localhost:50052"])], []⟩
        (fun _ _ _ => BackendOutcome.rpcError StatusCode.notFound "session missing" :
          Backend Nat Nat) "GetMessages" (some "sessions") 0
      = .err .notFound "session missing" := by
  refine ⟨?_, ?_, ?_⟩
  · exact (C1_amended_proxy_routing ["sessions"] ⟨[("sessions", ["localhost:50052"])], []⟩
      (fun _ _ _ => BackendOutcome.rpcError StatusCode.notFound "session missing")
      "GetMessages" none 0).1 (Or.inl rfl)
  · exact (C1_amended_proxy_routing ["sessions"] ⟨[("sessions", ["localhost:50052"])], []⟩
      (fun _ _ _ => BackendOutcome.rpcError StatusCode.notFound "session missing")
      "GetMessages" (some "models") 0).2.1 "models" rfl (by decide) (by decide)
  · exact ((C1_amended_proxy_routing ["sessions"] ⟨[("sessions", ["localhost:50052"])], []⟩
      (fun _ _ _ => BackendOutcome.rpcError StatusCode.notFound "session missing")
      "GetMessages" (some "sessions") 0).2.2.2 "sessions" "localhost:50052" rfl
      (by decide) (by decide) rfl).2.1 StatusCode.notFound "session missing" rfl

/-- C2, confirmed: when a model name has an explicit registration,
resolution is exactly the lookup of the registration's `adapter_type` among
the configured adapters — in particular, when no configured adapter has that
identifier, resolution yields none (and `Chat` fails with NotFound) without
ever consulting the adapters' auto-discovered model sets, even when some
adapter auto-discovers that very name. -/
theorem C2_explicit_registration_selects_adapter {Cfg Msg Tool Fmt : Type}
    (st : ModelServiceState) (model_name : String) (registered : RegisteredModel)
    (hreg : PyDict.get st.model_registry model_name = some registered) :
    ModelService.resolve_provider st model_name
      = PyDict.get st.providers registered.adapter_type
    ∧ (PyDict.get st.providers registered.adapter_type = none →
        (∃ p ∈ st.providers, ∃ mi ∈ p.2.supported_models, mi.name = model_name) →
        ∀ (req : ChatRequest Cfg Msg Tool Fmt) (default_config : Cfg),
          req.model = model_name → model_name ≠ "" →
          ModelService.Chat st req default_config
            = .error .notFound s!"No provider found for model \x27{model_name}\x27.") := by
  constructor
  · simp [ModelService.resolve_provider, hreg]
  · intro hnone _hdisc req default_config hmodel hne
    have hres : ModelService.resolve_provider st model_name = none := by
      simp [ModelService.resolve_provider, hreg, hnone]
    simp [ModelService.Chat, hmodel, hne, hres]

/-- C2 witness: "claude-sonnet-4-5" is auto-discovered by the configured
anthropic adapter, but its explicit registration names the unconfigured
adapter type "vllm": resolution is none and Chat reports NotFound. -/
theorem C2_explicit_registration_selects_adapter_witness :
    ModelService.resolve_provider
        ⟨[("anthropic", ⟨[⟨"claude-sonnet-4-5", "anthropic", ⟨200000, true, true⟩⟩]⟩)],
          [("claude-sonnet-4-5",
            ⟨"claude-sonnet-4-5", "http://sonnet.local", ⟨200000, true, true⟩, "/health",
              "provisioning", "2026-01-01T00:00:00Z", "custom", "vllm"⟩)],
          []⟩
        "claude-sonnet-4-5"
      = none
    ∧ ModelService.Chat
        ⟨[("anthropic", ⟨[⟨"claude-sonnet-4-5", "anthropic", ⟨200000, true, true⟩⟩]⟩)],
          [("claude-sonnet-4-5",
            ⟨"claude-sonnet-4-5", "http://sonnet.local", ⟨200000, true, true⟩, "/health",
              "provisioning", "2026-01-01T00:00:00Z", "custom", "vllm"⟩)],
          []⟩
        (⟨"claude-sonnet-4-5", "", [], none, [], none⟩ : ChatRequest Unit Unit Unit Unit) ()
      = .error .notFound "No provider found for model \x27claude-sonnet-4-5\x27." := by
  have h := @C2_explicit_registration_selects_adapter Unit Unit Unit Unit
    ⟨[("anthropic", ⟨[⟨"claude-sonnet-4-5", "anthropic", ⟨200000, true, true⟩⟩]⟩)],
      [("claude-sonnet-4-5",
        ⟨"claude-sonnet-4-5", "http://sonnet.local", ⟨200000, true, true⟩, "/health",
          "provisioning", "2026-01-01T00:00:00Z", "custom", "vllm"⟩)],
      []⟩
    "claude-sonnet-4-5"
    ⟨"claude-sonnet-4-5", "http://sonnet.local", ⟨200000, true, true⟩, "/health",
      "provisioning", "2026-01-01T00:00:00Z", "custom", "vllm"⟩
    rfl
  constructor
  · rw [h.1]; rfl
  · exact h.2 rfl
      ⟨("anthropic", ⟨[⟨"claude-sonnet-4-5", "anthropic", ⟨200000, true, true⟩⟩]⟩), by decide,
        ⟨"claude-sonnet-4-5", "anthropic", ⟨200000, true, true⟩⟩, by decide, rfl⟩
      ⟨"claude-sonnet-4-5", "", [], none, [], none⟩ () rfl (by decide)

/-- The name-to-info pairs a provider scan inserts, flattened into one list
in scan order. -/
def providerPairs (providers : List (String × ProviderAdapter)) : List (String × ModelInfo) :=
  providers.flatMap fun p => p.2.supported_models.map fun mi => (mi.name, mi)

theorem providers_foldl_eq_flat (providers : List (String × ProviderAdapter)) :
    ∀ m : List (String × ModelInfo),
      providers.foldl
        (fun acc p => p.2.supported_models.foldl (fun acc2 mi => PyDict.insert acc2 mi.name mi) acc)
        m
      = (providerPairs providers).foldl (fun acc q => PyDict.insert acc q.1 q.2) m := by
  induction providers with
  | nil => intro m; simp [providerPairs]
  | cons p rest ih =>
    intro m
    simp only [providerPairs, List.flatMap_cons, List.foldl_append, List.foldl_cons]
    rw [ih, List.foldl_map]
    rfl

theorem registry_foldl_eq_flat (registry : List (String × RegisteredModel))
    (m : List (String × ModelInfo)) :
    registry.foldl (fun acc p => PyDict.insert acc p.2.name (registeredInfo p.2)) m
      = (registry.map fun p => (p.2.name, registeredInfo p.2)).foldl
          (fun acc q => PyDict.insert acc q.1 q.2) m := by
  rw [List.foldl_map]

theorem keyname_inv_insert (m : List (String × ModelInfo)) (k : String) (v : ModelInfo)
    (hm : ∀ p ∈ m, p.1 = p.2.name) (hkv : k = v.name) :
    ∀ p ∈ PyDict.insert m k v, p.1 = p.2.name := by
  induction m with
  | nil =>
    intro p hp
    simp [PyDict.insert] at hp
    simp [hp, hkv]
  | cons q rest ih =>
    intro p hp
    by_cases hq : q.1 = k
    · simp only [PyDict.insert, if_pos hq] at hp
      rcases List.mem_cons.mp hp with h | h
      · simp [h, hq, hkv]
      · exact hm p (List.mem_cons_of_mem _ h)
    · simp only [PyDict.insert, if_neg hq] at hp
      rcases List.mem_cons.mp hp with h | h
      · exact hm p (h ▸ List.mem_cons_self q rest)
      · exact ih (fun r hr => hm r (List.mem_cons_of_mem _ hr)) p h

theorem keyname_inv_foldl (l : List (String × ModelInfo)) (hl : ∀ q ∈ l, q.1 = q.2.name) :
    ∀ m : List (String × ModelInfo), (∀ p ∈ m, p.1 = p.2.name) →
      ∀ p ∈ l.foldl (fun acc q => PyDict.insert acc q.1 q.2) m, p.1 = p.2.name := by
  induction l with
  | nil => intro m hm; simpa using hm
  | cons q rest ih =>
    intro m hm
    exact ih (fun r hr => hl r (List.mem_cons_of_mem _ hr))
      (PyDict.insert m q.1 q.2)
      (keyname_inv_insert m q.1 q.2 hm (hl q (List.mem_cons_self q rest)))

theorem find_name_on_values (d : List (String × ModelInfo))
    (hinv : ∀ p ∈ d, p.1 = p.2.name) (name : String) :
    (d.map Prod.snd).find? (fun mi => mi.name = name) = PyDict.get d name := by
  induction d with
  | nil => simp [PyDict.get]
  | cons p rest ih =>
    have hp := hinv p (List.mem_cons_self p rest)
    by_cases h : p.1 = name
    · have : p.2.name = name := hp ▸ h
      simp [List.find?, PyDict.get, h, this]
    · have hn : ¬p.2.name = name := fun hh => h (hp.symm ▸ hh)
      simp only [List.map_cons]
      rw [List.find?_cons_of_neg _ (by simp [hn])]
      simp only [PyDict.get, if_neg h]
      exact ih fun q hq => hinv q (List.mem_cons_of_mem _ hq)

theorem lastVal_registry_pairs (l : List (String × RegisteredModel)) (name : String)
    (registered : RegisteredModel)
    (hinv : ∀ p ∈ l, p.2.name = p.1) (hnodup : (PyDict.keys l).Nodup)
    (hget : PyDict.get l name = some registered) :
    PyDict.lastVal (l.map fun p => (p.2.name, registeredInfo p.2)) name
      = some (registeredInfo registered) := by
  induction l with
  | nil => simp [PyDict.get] at hget
  | cons p rest ih =>
    have hkeys : PyDict.keys (rest.map fun p => (p.2.name, registeredInfo p.2))
        = PyDict.keys rest := by
      simp only [PyDict.keys, List.map_map]
      exact List.map_congr_left fun q hq => hinv q (List.mem_cons_of_mem _ hq)
    simp only [PyDict.keys, List.map_cons, List.nodup_cons] at hnodup
    by_cases h : p.1 = name
    · simp only [PyDict.get, if_pos h, Option.some.injEq] at hget
      have hrest : PyDict.lastVal (rest.map fun p => (p.2.name, registeredInfo p.2)) name
          = none := by
        apply PyDict.lastVal_eq_none_of_not_mem
        rw [hkeys]
        intro hmem
        exact hnodup.1 (h ▸ (by simpa [PyDict.keys] using hmem))
      have hpn : p.2.name = name := h ▸ hinv p (List.mem_cons_self p rest)
      subst hget
      simp [PyDict.lastVal, hrest, hpn]
    · simp only [PyDict.get, if_neg h] at hget
      have := ih (fun q hq => hinv q (List.mem_cons_of_mem _ hq))
        (by simpa [PyDict.keys] using hnodup.2) hget
      simp [PyDict.lastVal, this]

/-- C3, confirmed: for a name that is both explicitly registered and
auto-discovered by a configured adapter, GetModelCapabilities returns the
registry entry's capabilities, and ListModels is de-duplicated by name with
the entry for the name carrying the registry's provider and capabilities.
The hypotheses `hinv`/`hnodup` are the dict invariants every reachable
`ModelRegistry._models` satisfies (it is keyed by the record's name). -/
theorem C3_registry_wins_over_discovery (st : ModelServiceState) (name : String)
    (registered : RegisteredModel)
    (hget : PyDict.get st.model_registry name = some registered)
    (hinv : ∀ p ∈ st.model_registry, p.2.name = p.1)
    (hnodup : (PyDict.keys st.model_registry).Nodup)
    (hdisc : ∃ p ∈ st.providers, ∃ mi ∈ p.2.supported_models, mi.name = name) :
    ModelService.GetModelCapabilities st name = .ok registered.capabilities
    ∧ ((ModelService.ListModels st).map ModelInfo.name).Nodup
    ∧ (ModelService.ListModels st).find? (fun mi => mi.name = name)
        = some (registeredInfo registered) := by
  clear hdisc
  have hflat : ModelService.ListModels st
      = ((st.model_registry.map fun p => (p.2.name, registeredInfo p.2)).foldl
          (fun acc q => PyDict.insert acc q.1 q.2)
          ((providerPairs st.providers).foldl (fun acc q => PyDict.insert acc q.1 q.2) [])).map
        Prod.snd := by
    simp only [ModelService.ListModels]
    rw [providers_foldl_eq_flat, registry_foldl_eq_flat]
  have hpd_inv : ∀ p ∈ (providerPairs st.providers).foldl
      (fun acc q => PyDict.insert acc q.1 q.2) [], p.1 = p.2.name := by
    apply keyname_inv_foldl
    · intro q hq
      simp only [providerPairs, List.mem_flatMap, List.mem_map] at hq
      obtain ⟨p, _, mi, _, rfl⟩ := hq
      rfl
    · simp
  have hpd_nodup : (PyDict.keys ((providerPairs st.providers).foldl
      (fun acc q => PyDict.insert acc q.1 q.2) [])).Nodup := by
    apply PyDict.nodup_keys_foldl_insert
    simp [PyDict.keys]
  have hd_inv : ∀ p ∈ (st.model_registry.map fun p => (p.2.name, registeredInfo p.2)).foldl
      (fun acc q => PyDict.insert acc q.1 q.2)
      ((providerPairs st.providers).foldl (fun acc q => PyDict.insert acc q.1 q.2) []),
      p.1 = p.2.name := by
    apply keyname_inv_foldl
    · intro q hq
      simp only [List.mem_map] at hq
      obtain ⟨p, _, rfl⟩ := hq
      rfl
    · exact hpd_inv
  have hd_nodup : (PyDict.keys ((st.model_registry.map fun p => (p.2.name, registeredInfo p.2)).foldl
      (fun acc q => PyDict.insert acc q.1 q.2)
      ((providerPairs st.providers).foldl (fun acc q => PyDict.insert acc q.1 q.2) []))).Nodup :=
    PyDict.nodup_keys_foldl_insert _ _ hpd_nodup
  refine ⟨?_, ?_, ?_⟩
  · simp [ModelService.GetModelCapabilities, hget]
  · rw [hflat]
    have : ((((st.model_registry.map fun p => (p.2.name, registeredInfo p.2)).foldl
        (fun acc q => PyDict.insert acc q.1 q.2)
        ((providerPairs st.providers).foldl (fun acc q => PyDict.insert acc q.1 q.2) [])).map
        Prod.snd).map ModelInfo.name)
        = PyDict.keys ((st.model_registry.map fun p => (p.2.name, registeredInfo p.2)).foldl
          (fun acc q => PyDict.insert acc q.1 q.2)
          ((providerPairs st.providers).foldl (fun acc q => PyDict.insert acc q.1 q.2) [])) := by
      simp only [PyDict.keys, List.map_map]
      exact List.map_congr_left fun p hp => (hd_inv p hp).symm
    rw [this]
    exact hd_nodup
  · rw [hflat, find_name_on_values _ hd_inv name,
      PyDict.get_foldl_insert,
      lastVal_registry_pairs st.model_registry name registered hinv hnodup hget]

/-- C3 witness: "gpt-4o" is auto-discovered by the openai adapter with a
128000-token window but explicitly registered with a 9000-token window; the
registry entry wins in both GetModelCapabilities and ListModels. -/
theorem C3_registry_wins_over_discovery_witness :
    ModelService.GetModelCapabilities
        ⟨[("openai", ⟨[⟨"gpt-4o", "openai", ⟨128000, true, true⟩⟩]⟩)],
          [("gpt-4o",
            ⟨"gpt-4o", "http://azure.local", ⟨9000, false, true⟩, "/health",
              "provisioning", "2026-01-01T00:00:00Z", "azure", "openai"⟩)],
          []⟩
        "gpt-4o"
      = .ok ⟨9000, false, true⟩
    ∧ ((ModelService.ListModels
        ⟨[("openai", ⟨[⟨"gpt-4o", "openai", ⟨128000, true, true⟩⟩]⟩)],
          [("gpt-4o",
            ⟨"gpt-4o", "http://azure.local", ⟨9000, false, true⟩, "/health",
              "provisioning", "2026-01-01T00:00:00Z", "azure", "openai"⟩)],
          []⟩).map ModelInfo.name).Nodup
    ∧ (ModelService.ListModels
        ⟨[("openai", ⟨[⟨"gpt-4o", "openai", ⟨128000, true, true⟩⟩]⟩)],
          [("gpt-4o",
            ⟨"gpt-4o", "http://azure.local", ⟨9000, false, true⟩, "/health",
              "provisioning", "2026-01-01T00:00:00Z", "azure", "openai"⟩)],
          []⟩).find? (fun mi => mi.name = "gpt-4o")
        = some ⟨"gpt-4o", "azure", ⟨9000, false, true⟩⟩ := by
  have h := C3_registry_wins_over_discovery
    ⟨[("openai", ⟨[⟨"gpt-4o", "openai", ⟨128000, true, true⟩⟩]⟩)],
      [("gpt-4o",
        ⟨"gpt-4o", "http://azure.local", ⟨9000, false, true⟩, "/health",
          "provisioning", "2026-01-01T00:00:00Z", "azure", "openai"⟩)],
      []⟩
    "gpt-4o"
    ⟨"gpt-4o", "http://azure.local", ⟨9000, false, true⟩, "/health",
      "provisioning", "2026-01-01T00:00:00Z", "azure", "openai"⟩
    rfl
    (by intro p hp; simp at hp; simp [hp])
    (by simp [PyDict.keys])
    ⟨("openai", ⟨[⟨"gpt-4o", "openai", ⟨128000, true, true⟩⟩]⟩), by decide,
      ⟨"gpt-4o", "openai", ⟨128000, true, true⟩⟩, by decide, rfl⟩
  exact h

/-- C4, confirmed: registering a prompt assigns version = existing count + 1
and appends without touching prior versions (or other names); version 0 (the
"latest"/omitted selector) retrieves the last appended record; an in-range
1-based version retrieves that exact registration; an out-of-range version
or an unknown name surfaces NotFound through GetPrompt.  The gapless-from-1
numbering is an invariant preserved by every register call. -/
theorem C4_prompt_versioning (st : ModelServiceState) (name content : String)
    (metadata : Option PromptMetadata) (created_at : String) :
    (PromptRegistry.register st.prompts name content metadata created_at).2.version
        = ((PyDict.get st.prompts name).getD []).length + 1
    ∧ PyDict.get (PromptRegistry.register st.prompts name content metadata created_at).1 name
        = some (((PyDict.get st.prompts name).getD [])
            ++ [(PromptRegistry.register st.prompts name content metadata created_at).2])
    ∧ (∀ other, other ≠ name →
        PyDict.get (PromptRegistry.register st.prompts name content metadata created_at).1 other
          = PyDict.get st.prompts other)
    ∧ PromptRegistry.get (PromptRegistry.register st.prompts name content metadata created_at).1
        name 0
        = some (PromptRegistry.register st.prompts name content metadata created_at).2
    ∧ (∀ v, 1 ≤ v → v ≤ ((PyDict.get st.prompts name).getD []).length →
        PromptRegistry.get (PromptRegistry.register st.prompts name content metadata created_at).1
          name v
          = ((PyDict.get st.prompts name).getD [])[v - 1]?)
    ∧ PromptRegistry.get (PromptRegistry.register st.prompts name content metadata created_at).1
        name (((PyDict.get st.prompts name).getD []).length + 1)
        = some (PromptRegistry.register st.prompts name content metadata created_at).2
    ∧ (∀ v, ((PyDict.get st.prompts name).getD []).length + 1 < v →
        ModelService.GetPrompt
            { st with prompts := (PromptRegistry.register st.prompts name content metadata created_at).1 }
            name v
          = .err .notFound s!"Prompt \x27{name}\x27 not found")
    ∧ (∀ n v, (PyDict.get st.prompts n).getD [] = [] →
        ModelService.GetPrompt st n v = .err .notFound s!"Prompt \x27{n}\x27 not found")
    ∧ ((∀ i : Fin ((PyDict.get st.prompts name).getD []).length,
          (((PyDict.get st.prompts name).getD []).get i).version = i.1 + 1) →
        ∀ i : Fin (((PyDict.get st.prompts name).getD [])
            ++ [(PromptRegistry.register st.prompts name content metadata created_at).2]).length,
          ((((PyDict.get st.prompts name).getD [])
            ++ [(PromptRegistry.register st.prompts name content metadata created_at).2]).get i).version
            = i.1 + 1) := by
  refine ⟨rfl, ?_, ?_, ?_, ?_, ?_, ?_, ?_, ?_⟩
  · simp [PromptRegistry.register, PyDict.get_insert_self]
  · intro other hother
    simp only [PromptRegistry.register]
    exact PyDict.get_insert_ne st.prompts name other _ hother
  · have hmem : PyDict.get (PromptRegistry.register st.prompts name content metadata created_at).1
        name = some (((PyDict.get st.prompts name).getD [])
          ++ [(PromptRegistry.register st.prompts name content metadata created_at).2]) := by
      simp [PromptRegistry.register, PyDict.get_insert_self]
    simp [PromptRegistry.get, hmem, List.getLast?_concat]
  · intro v h1 h2
    have hmem : PyDict.get (PromptRegistry.register st.prompts name content metadata created_at).1
        name = some (((PyDict.get st.prompts name).getD [])
          ++ [(PromptRegistry.register st.prompts name content metadata created_at).2]) := by
      simp [PromptRegistry.register, PyDict.get_insert_self]
    have hvne : ¬v = 0 := by omega
    have hvle : v ≤ (((PyDict.get st.prompts name).getD [])
        ++ [(PromptRegistry.register st.prompts name content metadata created_at).2]).length := by
      simp
      omega
    simp only [PromptRegistry.get, hmem, Option.getD_some]
    rw [if_neg (by simp), if_neg hvne, if_pos hvle]
    exact List.getElem?_append_left (by omega)
  · have hmem : PyDict.get (PromptRegistry.register st.prompts name content metadata created_at).1
        name = some (((PyDict.get st.prompts name).getD [])
          ++ [(PromptRegistry.register st.prompts name content metadata created_at).2]) := by
      simp [PromptRegistry.register, PyDict.get_insert_self]
    simp only [PromptRegistry.get, hmem, Option.getD_some]
    rw [if_neg (by simp), if_neg (by omega), if_pos (by simp)]
    simp
  · intro v hv
    have hmem : PyDict.get (PromptRegistry.register st.prompts name content metadata created_at).1
        name = some (((PyDict.get st.prompts name).getD [])
          ++ [(PromptRegistry.register st.prompts name content metadata created_at).2]) := by
      simp [PromptRegistry.register, PyDict.get_insert_self]
    have hgt : ¬v ≤ (((PyDict.get st.prompts name).getD [])
        ++ [(PromptRegistry.register st.prompts name content metadata created_at).2]).length := by
      simp
      omega
    simp only [ModelService.GetPrompt, PromptRegistry.get, hmem, Option.getD_some]
    rw [if_neg (by simp), if_neg (by omega), if_neg hgt]
  · intro n v hempty
    simp [ModelService.GetPrompt, PromptRegistry.get, hempty]
  · intro hgap i
    by_cases hlt : i.1 < ((PyDict.get st.prompts name).getD []).length
    · have := hgap ⟨i.1, hlt⟩
      rw [List.get_append i.1 hlt] at *
      simpa using this
    · have hlen : i.1 = ((PyDict.get st.prompts name).getD []).length := by
        have := i.2
        simp at this
        omega
      have : (((PyDict.get st.prompts name).getD [])
          ++ [(PromptRegistry.register st.prompts name content metadata created_at).2]).get i
          = (PromptRegistry.register st.prompts name content metadata created_at).2 := by
        rw [List.get_eq_getElem, List.getElem_append_right (by omega)]
        simp [hlen]
      rw [this, hlen]
      rfl

/-- C4 witness: two registrations of "p" get versions 1 and 2; version 0
returns the second; version 1 returns the first unchanged; version 3 is
NotFound; an unknown name is NotFound. -/
theorem C4_prompt_versioning_witness :
    (PromptRegistry.register [("p", [⟨"p", 1, "first", default, "t1"⟩])] "p" "second" none "t2").2.version
        = 2
    ∧ PromptRegistry.get
        (PromptRegistry.register [("p", [⟨"p", 1, "first", default, "t1"⟩])] "p" "second" none "t2").1
        "p" 0 = some ⟨"p", 2, "second", default, "t2"⟩
    ∧ PromptRegistry.get
        (PromptRegistry.register [("p", [⟨"p", 1, "first", default, "t1"⟩])] "p" "second" none "t2").1
        "p" 1 = some ⟨"p", 1, "first", default, "t1"⟩
    ∧ ModelService.GetPrompt
        ⟨[], [],
          (PromptRegistry.register [("p", [⟨"p", 1, "first", default, "t1"⟩])] "p" "second" none "t2").1⟩
        "p" 3 = .err .notFound "Prompt \x27p\x27 not found"
    ∧ ModelService.GetPrompt ⟨[], [], [("p", [⟨"p", 1, "first", default, "t1"⟩])]⟩ "q" 0
        = .err .notFound "Prompt \x27q\x27 not found" := by
  have h := C4_prompt_versioning ⟨[], [], [("p", [⟨"p", 1, "first", default, "t1"⟩])]⟩
    "p" "second" none "t2"
  refine ⟨h.1, ?_, ?_, ?_, ?_⟩
  · have h4 := h.2.2.2.1
    simpa using h4
  · have h5 := h.2.2.2.2.1 1 (by decide) (by decide)
    simpa using h5
  · have h7 := h.2.2.2.2.2.2.1 3 (by decide)
    simpa using h7
  · exact h.2.2.2.2.2.2.2.1 "q" 0 rfl

/-- A six-message log used to exercise `get_messages` pagination. -/
def c5Log : List Message :=
  [⟨"user", some "m1", [], none, none, 1⟩,
    ⟨"assistant", some "m2", [], none, none, 2⟩,
    ⟨"user", some "m3", [], none, none, 3⟩,
    ⟨"assistant", some "m4", [], none, none, 4⟩,
    ⟨"user", some "m5", [], none, none, 5⟩,
    ⟨"assistant", some "m6", [], none, none, 6⟩]

/-- A storage holding one session "s" with the six-message log. -/
def c5Store : InMemoryStorage :=
  ⟨[("s", ⟨"s", "u", 0, 0⟩)], [("s", c5Log)], []⟩

/-- C5, counterexample to the original claim: with an explicit `limit` of 0
and `offset` 2, the claimed sub-sequence `[2 : 2+0]` is empty, but the code
treats the falsy limit as "no limit" and returns the rest of the log (4
messages). -/
theorem C5_counterexample_zero_limit :
    (InMemorySessionStorage.get_messages c5Store "s" (some 0) (some 2)).1 = c5Log.drop 2
    ∧ (InMemorySessionStorage.get_messages c5Store "s" (some 0) (some 2)).1
        ≠ (c5Log.drop 2).take 0 := by
  constructor
  · rfl
  · decide

/-- C5, corrected.  The amended claim: `getMessages` always reports the full
log's length as the total; a present non-zero limit returns exactly the
sub-sequence `[offset : offset+limit]` of the insertion-ordered log; an
absent limit — or a limit of 0, which is falsy in Python — returns the whole
log from `offset` on; a session id with no log yields the empty sequence
with total 0. -/
theorem C5_amended_pagination (st : InMemoryStorage) (sid : String)
    (limit offset : Option Nat) :
    (∀ msgs, PyDict.get st.messages sid = some msgs →
      ((InMemorySessionStorage.get_messages st sid limit offset).2 = msgs.length
        ∧ (∀ l, limit = some l → 0 < l →
            (InMemorySessionStorage.get_messages st sid limit offset).1
              = (msgs.take (offset.getD 0 + l)).drop (offset.getD 0))
        ∧ ((limit = none ∨ limit = some 0) →
            (InMemorySessionStorage.get_messages st sid limit offset).1
              = msgs.drop (offset.getD 0))))
    ∧ (PyDict.get st.messages sid = none →
        InMemorySessionStorage.get_messages st sid limit offset = ([], 0)) := by
  constructor
  · intro msgs hlog
    refine ⟨?_, ?_, ?_⟩
    · simp [InMemorySessionStorage.get_messages, hlog]
    · rintro l rfl hl
      have := List.drop_take (offset.getD 0 + l) (offset.getD 0) msgs
      simp only [Nat.add_sub_cancel_left] at this
      simp [InMemorySessionStorage.get_messages, hlog, Nat.pos_iff_ne_zero.mp hl, this]
    · rintro (rfl | rfl) <;> simp [InMemorySessionStorage.get_messages, hlog]
  · intro hnone
    simp [InMemorySessionStorage.get_messages, hnone]

/-- C5 witness: the spec's own example — limit 2 and offset 2 on a
six-message log return exactly messages 3 and 4 in order, with total 6. -/
theorem C5_amended_pagination_witness :
    (InMemorySessionStorage.get_messages c5Store "s" (some 2) (some 2)).2 = 6
    ∧ (InMemorySessionStorage.get_messages c5Store "s" (some 2) (some 2)).1
        = [⟨"user", some "m3", [], none, none, 3⟩, ⟨"assistant", some "m4", [], none, none, 4⟩] := by
  have h := (C5_amended_pagination c5Store "s" (some 2) (some 2)).1 c5Log rfl
  constructor
  · simpa [c5Log] using h.1
  · have h2 := h.2.1 2 rfl (by decide)
    rw [h2]
    decide

/-- C6, counterexample to the original claim: on the Postgres backend a
get-or-create for the existing session "s" at time 10 returns the stored row
with `updated_at` still 5 and leaves the table untouched — the claim
required the existing session's `updated_at` to be refreshed. -/
theorem C6_counterexample_postgres_stale_updated_at :
    PostgresSessionStorage.get_or_create_session ⟨[⟨"s", "u", 1, 5⟩], [], 1⟩ "u" (some "s") 10 "f"
      = (⟨[⟨"s", "u", 1, 5⟩], [], 1⟩, ⟨"s", "u", 1, 5⟩)
    ∧ (⟨"s", "u", 1, 5⟩ : SessionRec).updated_at ≠ 10 := by
  constructor
  · rfl
  · decide

/-- C6, corrected.  The amended claim: with a supplied, existing session_id,
getOrCreate returns the existing record (same session_id, user_id and
created_at); the in-memory backend also refreshes its `updated_at` to the
call time, while the Postgres backend returns the row exactly as stored,
`updated_at` unrefreshed.  With a supplied session_id that does not exist,
both backends create a record using exactly that id; with no session_id (or
an empty one, which is falsy), both generate and use a fresh id. -/
theorem C6_amended_get_or_create (u sid fresh : String) (now : Nat) :
    (∀ (st : InMemoryStorage) (rec : SessionRec), sid ≠ "" →
      PyDict.get st.sessions sid = some rec →
      InMemorySessionStorage.get_or_create_session st u (some sid) now fresh
        = ({ st with sessions := PyDict.insert st.sessions sid { rec with updated_at := now } },
            { rec with updated_at := now }))
    ∧ (∀ st : InMemoryStorage, sid ≠ "" → PyDict.get st.sessions sid = none →
        InMemorySessionStorage.get_or_create_session st u (some sid) now fresh
          = ({ st with
                sessions := PyDict.insert st.sessions sid ⟨sid, u, now, now⟩
                messages := PyDict.insert st.messages sid [] },
              ⟨sid, u, now, now⟩))
    ∧ (∀ st : InMemoryStorage,
        (InMemorySessionStorage.get_or_create_session st u none now fresh).2
          = ⟨fresh, u, now, now⟩)
    ∧ (∀ (st : PgState) (rec : SessionRec), sid ≠ "" →
        st.sessions.find? (fun r => r.session_id = sid) = some rec →
        PostgresSessionStorage.get_or_create_session st u (some sid) now fresh = (st, rec))
    ∧ (∀ st : PgState, sid ≠ "" →
        st.sessions.find? (fun r => r.session_id = sid) = none →
        PostgresSessionStorage.get_or_create_session st u (some sid) now fresh
          = ({ st with sessions := st.sessions ++ [⟨sid, u, now, now⟩] }, ⟨sid, u, now, now⟩)) := by
  refine ⟨?_, ?_, ?_, ?_, ?_⟩
  · intro st rec hne hrec
    simp [InMemorySessionStorage.get_or_create_session, hne, hrec]
  · intro st hne hnone
    simp [InMemorySessionStorage.get_or_create_session, hne, hnone]
  · intro st
    simp [InMemorySessionStorage.get_or_create_session]
  · intro st rec hne hrec
    simp [PostgresSessionStorage.get_or_create_session, hne, hrec]
  · intro st hne hnone
    simp [PostgresSessionStorage.get_or_create_session, hne, hnone]

/-- C6 witness: the three in-memory cases and the Postgres stale-read case
at concrete inputs. -/
theorem C6_amended_get_or_create_witness :
    InMemorySessionStorage.get_or_create_session ⟨[("s", ⟨"s", "u", 1, 5⟩)], [("s", [])], []⟩
        "u" (some "s") 10 "f"
      = (⟨[("s", ⟨"s", "u", 1, 10⟩)], [("s", [])], []⟩, ⟨"s", "u", 1, 10⟩)
    ∧ InMemorySessionStorage.get_or_create_session ⟨[], [], []⟩ "u" (some "t") 10 "f"
      = (⟨[("t", ⟨"t", "u", 10, 10⟩)], [("t", [])], []⟩, ⟨"t", "u", 10, 10⟩)
    ∧ (InMemorySessionStorage.get_or_create_session ⟨[], [], []⟩ "u" none 10 "f").2
      = ⟨"f", "u", 10, 10⟩
    ∧ PostgresSessionStorage.get_or_create_session ⟨[⟨"s", "u", 1, 5⟩], [], 1⟩ "u" (some "s") 10 "f"
      = (⟨[⟨"s", "u", 1, 5⟩], [], 1⟩, ⟨"s", "u", 1, 5⟩) := by
  have h := C6_amended_get_or_create "u" "s" "f" 10
  refine ⟨?_, ?_, ?_, ?_⟩
  · exact h.1 ⟨[("s", ⟨"s", "u", 1, 5⟩)], [("s", [])], []⟩ ⟨"s", "u", 1, 5⟩ (by decide) rfl
  · exact (C6_amended_get_or_create "u" "t" "f" 10).2.1 ⟨[], [], []⟩ (by decide) rfl
  · exact h.2.2.1 ⟨[], [], []⟩
  · exact h.2.2.2.1 ⟨[⟨"s", "u", 1, 5⟩], [], 1⟩ ⟨"s", "u", 1, 5⟩ (by decide) rfl

/-- C7, confirmed: deleteSession reports whether the session existed; when
it did, the session's log is gone and any subsequent getMessages on the id
returns the empty sequence with total 0; and in every case the memory store
— including the deleted session's session-scoped entries — is left
byte-for-byte unchanged, so every getMemory result is unchanged. -/
theorem C7_delete_session_frame (st : InMemoryStorage) (sid : String) :
    (InMemorySessionStorage.delete_session st sid).2 = (PyDict.get st.sessions sid).isSome
    ∧ ((PyDict.get st.sessions sid).isSome = true →
        ∀ limit offset,
          InMemorySessionStorage.get_messages (InMemorySessionStorage.delete_session st sid).1
            sid limit offset = ([], 0))
    ∧ (InMemorySessionStorage.delete_session st sid).1.memories = st.memories
    ∧ (∀ u key s,
        InMemorySessionStorage.get_memory (InMemorySessionStorage.delete_session st sid).1 u key s
          = InMemorySessionStorage.get_memory st u key s) := by
  by_cases hex : (PyDict.get st.sessions sid).isSome = true
  · refine ⟨?_, ?_, ?_, ?_⟩
    · simp [InMemorySessionStorage.delete_session, hex]
    · intro _ limit offset
      have hgone : PyDict.get (InMemorySessionStorage.delete_session st sid).1.messages sid
          = none := by
        simp [InMemorySessionStorage.delete_session, hex, PyDict.get_remove_self]
      simp [InMemorySessionStorage.get_messages, hgone]
    · simp [InMemorySessionStorage.delete_session, hex]
    · intro u key s
      simp [InMemorySessionStorage.get_memory, InMemorySessionStorage.delete_session, hex]
  · have hex' : (PyDict.get st.sessions sid).isSome = false := by
      simpa using hex
    refine ⟨?_, ?_, ?_, ?_⟩
    · simp [InMemorySessionStorage.delete_session, hex']
    · intro hcontra
      rw [hcontra] at hex'
      exact absurd hex' (by simp)
    · simp [InMemorySessionStorage.delete_session, hex']
    · intro u key s
      simp [InMemorySessionStorage.get_memory, InMemorySessionStorage.delete_session, hex']

/-- C7 witness: deleting session "s" (which has a log and session-scoped
memory) returns true, empties its message view, and leaves the memory store
intact. -/
theorem C7_delete_session_frame_witness :
    (InMemorySessionStorage.delete_session
        ⟨[("s", ⟨"s", "u", 1, 5⟩)], [("s", [⟨"user", some "hi", [], none, none, 1⟩])],
          [(("u", "k", "s"), "v1"), (("u", "k", ""), "v0")]⟩ "s").2 = true
    ∧ InMemorySessionStorage.get_messages
        (InMemorySessionStorage.delete_session
          ⟨[("s", ⟨"s", "u", 1, 5⟩)], [("s", [⟨"user", some "hi", [], none, none, 1⟩])],
            [(("u", "k", "s"), "v1"), (("u", "k", ""), "v0")]⟩ "s").1 "s" none none = ([], 0)
    ∧ (InMemorySessionStorage.delete_session
        ⟨[("s", ⟨"s", "u", 1, 5⟩)], [("s", [⟨"user", some "hi", [], none, none, 1⟩])],
          [(("u", "k", "s"), "v1"), (("u", "k", ""), "v0")]⟩ "s").1.memories
      = [(("u", "k", "s"), "v1"), (("u", "k", ""), "v0")] := by
  have h := C7_delete_session_frame
    ⟨[("s", ⟨"s", "u", 1, 5⟩)], [("s", [⟨"user", some "hi", [], none, none, 1⟩])],
      [(("u", "k", "s"), "v1"), (("u", "k", ""), "v0")]⟩ "s"
  exact ⟨h.1, h.2.1 rfl none none, h.2.2.1⟩

/-- C8, counterexample to the original claim: on the (default) in-memory
backend, AddMessages for the unknown session id "ghost" does not report
Internal — it succeeds with count 1, silently creating a log for the unknown
id. -/
theorem C8_counterexample_unknown_session_succeeds :
    (SessionService.AddMessagesInMemory ⟨[], [], []⟩ "ghost"
        [⟨"user", some "hi", [], none, none, 1⟩] 7).2 = .ok (true, 1)
    ∧ ((SessionService.AddMessagesInMemory ⟨[], [], []⟩ "ghost"
        [⟨"user", some "hi", [], none, none, 1⟩] 7).2).isInternal = false := by
  exact ⟨rfl, rfl⟩

/-- C8, corrected.  The amended claim: for a known session_id, addMessages
appends the given messages to the session's log in call order, advances the
session's `updated_at` to the call time, and returns the count appended.
For an unknown session_id the backends diverge: the Postgres backend fails —
the foreign-key violation on the first insert surfaces as Internal through
the AddMessages RPC (whenever at least one message is given) and the state
is unchanged — but the in-memory backend succeeds, creating a fresh log
under the unknown id and reporting success with the count. -/
theorem C8_amended_add_messages (sid : String) (msgs : List Message) (now : Nat) :
    (∀ (st : InMemoryStorage) (rec : SessionRec),
      PyDict.get st.sessions sid = some rec →
      InMemorySessionStorage.add_messages st sid msgs now
        = ({ st with
              messages := PyDict.insert st.messages sid
                ((PyDict.get st.messages sid).getD [] ++ msgs)
              sessions := PyDict.insert st.sessions sid { rec with updated_at := now } },
            msgs.length))
    ∧ (∀ st : InMemoryStorage, PyDict.get st.sessions sid = none →
        (SessionService.AddMessagesInMemory st sid msgs now).2 = .ok (true, msgs.length)
        ∧ PyDict.get (SessionService.AddMessagesInMemory st sid msgs now).1.messages sid
            = some ((PyDict.get st.messages sid).getD [] ++ msgs))
    ∧ (∀ st : PgState, st.sessions.any (fun r => r.session_id = sid) = false →
        msgs ≠ [] →
        SessionService.AddMessagesPostgres st sid msgs now
          = (st, .err .internal
              "Failed to add messages: violates foreign key constraint on sessions")) := by
  refine ⟨?_, ?_, ?_⟩
  · intro st rec hrec
    simp [InMemorySessionStorage.add_messages, hrec]
  · intro st hnone
    refine ⟨rfl, ?_⟩
    simp [SessionService.AddMessagesInMemory, InMemorySessionStorage.add_messages, hnone,
      PyDict.get_insert_self]
  · intro st habs hne
    have hempty : msgs.isEmpty = false := by
      cases msgs with
      | nil => exact absurd rfl hne
      | cons m rest => rfl
    simp [SessionService.AddMessagesPostgres, PostgresSessionStorage.add_messages, hempty, habs]

/-- C8 witness: a known session gets its log extended in order, its
`updated_at` advanced, and count 2 back; the unknown-session in-memory RPC
succeeds; the unknown-session Postgres RPC is Internal. -/
theorem C8_amended_add_messages_witness :
    InMemorySessionStorage.add_messages
        ⟨[("s", ⟨"s", "u", 1, 5⟩)], [("s", [⟨"user", some "m1", [], none, none, 1⟩])], []⟩ "s"
        [⟨"assistant", some "m2", [], none, none, 2⟩, ⟨"user", some "m3", [], none, none, 3⟩] 9
      = (⟨[("s", ⟨"s", "u", 1, 9⟩)],
          [("s", [⟨"user", some "m1", [], none, none, 1⟩,
            ⟨"assistant", some "m2", [], none, none, 2⟩,
            ⟨"user", some "m3", [], none, none, 3⟩])], []⟩, 2)
    ∧ (SessionService.AddMessagesInMemory ⟨[], [], []⟩ "ghost"
        [⟨"user", some "hello", [], none, none, 1⟩] 7).2 = .ok (true, 1)
    ∧ SessionService.AddMessagesPostgres ⟨[], [], 1⟩ "ghost"
        [⟨"user", some "hello", [], none, none, 1⟩] 7
      = (⟨[], [], 1⟩, .err .internal
          "Failed to add messages: violates foreign key constraint on sessions") := by
  have h := C8_amended_add_messages "s"
    [⟨"assistant", some "m2", [], none, none, 2⟩, ⟨"user", some "m3", [], none, none, 3⟩] 9
  refine ⟨?_, ?_, ?_⟩
  · have h1 := h.1 ⟨[("s", ⟨"s", "u", 1, 5⟩)], [("s", [⟨"user", some "m1", [], none, none, 1⟩])], []⟩
      ⟨"s", "u", 1, 5⟩ rfl
    rw [h1]
    rfl
  · exact ((C8_amended_add_messages "ghost" [⟨"user", some "hello", [], none, none, 1⟩] 7).2.1
      ⟨[], [], []⟩ rfl).1
  · exact (C8_amended_add_messages "ghost" [⟨"user", some "hello", [], none, none, 1⟩] 7).2.2
      ⟨[], [], 1⟩ rfl (by decide)

/-- The value the `get_memory` loop leaves under result key `k`: the value
of the last filter-passing entry whose own key is `k`. -/
def memLastVal (user_id : String) (key session_id : Option String) :
    List ((String × String × String) × String) → String → Option String
  | [], _ => none
  | e :: rest, k =>
    match memLastVal user_id key session_id rest k with
    | some v => some v
    | none =>
      if memPass user_id key session_id e && (e.1.2.1 == k) then some e.2 else none

theorem get_memory_foldl_aux (u : String) (key sid : Option String) (k : String)
    (l : List ((String × String × String) × String)) :
    ∀ acc : List (String × String),
      PyDict.get
        (l.foldl
          (fun results e =>
            if memPass u key sid e then PyDict.insert results e.1.2.1 e.2 else results)
          acc) k
      = match memLastVal u key sid l k with
        | some v => some v
        | none => PyDict.get acc k := by
  induction l with
  | nil => intro acc; simp [memLastVal]
  | cons e rest ih =>
    intro acc
    simp only [List.foldl_cons, memLastVal]
    rw [ih]
    cases hrest : memLastVal u key sid rest k with
    | some v => simp
    | none =>
      by_cases hpass : memPass u key sid e
      · by_cases hk : e.1.2.1 = k
        · simp [hpass, hk, PyDict.get_insert_self]
        · simp [hpass, hk,
            PyDict.get_insert_ne acc e.1.2.1 k e.2 (fun hh => hk hh.symm)]
      · simp [hpass]

theorem get_memory_lookup (st : InMemoryStorage) (u : String) (key sid : Option String)
    (k : String) :
    PyDict.get (InMemorySessionStorage.get_memory st u key sid) k
      = memLastVal u key sid st.memories k := by
  unfold InMemorySessionStorage.get_memory
  rw [get_memory_foldl_aux]
  cases memLastVal u key sid st.memories k <;> simp [PyDict.get]

theorem memPass_true_elim (u : String) (key sid : Option String)
    (e : (String × String × String) × String) (h : memPass u key sid e = true) :
    e.1.1 = u
    ∧ (∀ s, sid = some s → s ≠ "" → e.1.2.2 = s) := by
  unfold memPass at h
  by_cases h1 : e.1.1 = u
  · refine ⟨h1, ?_⟩
    rintro s rfl hs
    rw [if_pos h1] at h
    by_cases h2 : filterSkip key e.1.2.1
    · rw [if_pos h2] at h
      exact absurd h (by simp)
    · rw [if_neg h2] at h
      by_cases h3 : filterSkip (some s) e.1.2.2
      · rw [if_pos h3] at h
        exact absurd h (by simp)
      · simp only [filterSkip] at h3
        rw [if_neg hs] at h3
        by_cases h4 : e.1.2.2 = s
        · exact h4
        · rw [if_neg h4] at h3
          exact absurd rfl h3
  · rw [if_neg h1] at h
    exact absurd h (by simp)

theorem memLastVal_none_session (u k s : String) (key : Option String)
    (l : List ((String × String × String) × String)) (hs : s ≠ "")
    (habs : (u, k, s) ∉ PyDict.keys l) :
    memLastVal u key (some s) l k = none := by
  induction l with
  | nil => simp [memLastVal]
  | cons e rest ih =>
    simp only [PyDict.keys, List.map_cons, List.mem_cons] at habs
    push_neg at habs
    have hrest := ih (by simpa [PyDict.keys] using habs.2)
    simp only [memLastVal, hrest]
    by_cases hpass : memPass u key (some s) e
    · by_cases hk : e.1.2.1 = k
      · obtain ⟨h1, h2⟩ := memPass_true_elim u key (some s) e hpass
        have h3 := h2 s rfl hs
        exfalso
        apply habs.1
        rw [← h1, ← hk, ← h3]
      · simp [hk]
    · simp [hpass]

theorem memLastVal_none_global (u k : String) (key : Option String)
    (l : List ((String × String × String) × String))
    (habs : ∀ s, (u, k, s) ∉ PyDict.keys l) :
    memLastVal u key none l k = none := by
  induction l with
  | nil => simp [memLastVal]
  | cons e rest ih =>
    have habs' : ∀ s, (u, k, s) ∉ PyDict.keys rest := by
      intro s hmem
      exact habs s (by simp [PyDict.keys] at hmem ⊢; exact Or.inr hmem)
    have hrest := ih habs'
    simp only [memLastVal, hrest]
    by_cases hpass : memPass u key none e
    · by_cases hk : e.1.2.1 = k
      · obtain ⟨h1, _⟩ := memPass_true_elim u key none e hpass
        exfalso
        apply habs e.1.2.2
        have : e.1 = (u, k, e.1.2.2) := by
          rw [← h1, ← hk]
        simp [PyDict.keys, ← this]
      · simp [hk]
    · simp [hpass]

theorem filterSkip_self_eq_false (f : String) : filterSkip (some f) f = false := by
  unfold filterSkip
  by_cases h : f = ""
  · simp [h]
  · simp [h]

theorem memPass_self_session (u k v s : String) :
    memPass u (some k) (some s) ((u, k, s), v) = true := by
  unfold memPass
  simp [filterSkip_self_eq_false]

theorem memPass_self_global (u k v scope : String) :
    memPass u (some k) none ((u, k, scope), v) = true := by
  unfold memPass
  simp [filterSkip_self_eq_false, filterSkip]

theorem memLastVal_insert_session (u k v s : String)
    (l : List ((String × String × String) × String)) (hs : s ≠ "")
    (hnodup : (PyDict.keys l).Nodup) :
    memLastVal u (some k) (some s) (PyDict.insert l (u, k, s) v) k = some v := by
  induction l with
  | nil =>
    simp [PyDict.insert, memLastVal, memPass_self_session]
  | cons e rest ih =>
    simp only [PyDict.keys, List.map_cons, List.nodup_cons] at hnodup
    by_cases he : e.1 = (u, k, s)
    · simp only [PyDict.insert, if_pos he]
      have hrest : memLastVal u (some k) (some s) rest k = none := by
        apply memLastVal_none_session u k s (some k) rest hs
        rw [← he]
        simpa [PyDict.keys] using hnodup.1
      simp only [memLastVal, hrest]
      rw [he]
      simp [memPass_self_session]
    · simp only [PyDict.insert, if_neg he]
      have hrest := ih (by simpa [PyDict.keys] using hnodup.2)
      simp [memLastVal, hrest]

theorem memLastVal_insert_global (u k v : String)
    (l : List ((String × String × String) × String))
    (hnodup : (PyDict.keys l).Nodup)
    (hnosess : ∀ s, s ≠ "" → (u, k, s) ∉ PyDict.keys l) :
    memLastVal u (some k) none (PyDict.insert l (u, k, "") v) k = some v := by
  induction l with
  | nil =>
    simp [PyDict.insert, memLastVal, memPass_self_global]
  | cons e rest ih =>
    simp only [PyDict.keys, List.map_cons, List.nodup_cons] at hnodup
    have hnosess' : ∀ s, s ≠ "" → (u, k, s) ∉ PyDict.keys rest := by
      intro s hsne hmem
      exact hnosess s hsne (by simp [PyDict.keys] at hmem ⊢; exact Or.inr hmem)
    by_cases he : e.1 = (u, k, "")
    · simp only [PyDict.insert, if_pos he]
      have hrest : memLastVal u (some k) none rest k = none := by
        apply memLastVal_none_global u k (some k) rest
        intro s
        by_cases hsne : s = ""
        · subst hsne
          rw [← he]
          simpa [PyDict.keys] using hnodup.1
        · exact hnosess' s hsne
      simp only [memLastVal, hrest]
      rw [he]
      simp [memPass_self_global]
    · simp only [PyDict.insert, if_neg he]
      have hrest := ih (by simpa [PyDict.keys] using hnodup.2) hnosess'
      simp [memLastVal, hrest]

/-- C9, counterexample to the original claim: the user already has the
session-scoped entry ("u","allergies","sess") ↦ "s1" alongside the global
slot; saving "new" into the global scope and reading the global scope back
returns "s1", not the value just saved — because `get_memory` with an empty
session filter merges all scopes and the later session-scoped entry wins the
result slot. -/
theorem C9_counterexample_global_roundtrip_shadowed :
    PyDict.get
      (InMemorySessionStorage.get_memory
        (InMemorySessionStorage.save_memory
          ⟨[], [], [(("u", "allergies", ""), "old"), (("u", "allergies", "sess"), "s1")]⟩
          "u" "allergies" "new" none).1
        "u" (some "allergies") none)
      "allergies" = some "s1"
    ∧ ("s1" : String) ≠ "new" := by
  constructor
  · rfl
  · decide

/-- C9, corrected.  The amended claim: saveMemory followed by getMemory for
the same user, key and scope returns the value saved (deep-equal — values
are compared by their JSON serialization) whenever the scope is a session
(non-empty session_id), and for the global scope whenever the user holds no
session-scoped entry under the same key; the global slot and a session slot
of the same (user, key) are disjoint in storage, so writing one leaves the
other unchanged; and re-writing an existing triple replaces its value.  The
`Nodup` hypotheses are the dict invariant `_memories` always satisfies. -/
theorem C9_amended_memory_roundtrip (u k v : String) :
    (∀ (st : InMemoryStorage) (s : String), s ≠ "" → (PyDict.keys st.memories).Nodup →
      PyDict.get
        (InMemorySessionStorage.get_memory
          (InMemorySessionStorage.save_memory st u k v (some s)).1 u (some k) (some s))
        k = some v)
    ∧ (∀ st : InMemoryStorage, (PyDict.keys st.memories).Nodup →
        (∀ s, s ≠ "" → (u, k, s) ∉ PyDict.keys st.memories) →
        PyDict.get
          (InMemorySessionStorage.get_memory
            (InMemorySessionStorage.save_memory st u k v none).1 u (some k) none)
          k = some v)
    ∧ (∀ (st : InMemoryStorage) (s : String), s ≠ "" →
        PyDict.get (InMemorySessionStorage.save_memory st u k v (some s)).1.memories (u, k, "")
          = PyDict.get st.memories (u, k, "")
        ∧ PyDict.get (InMemorySessionStorage.save_memory st u k v none).1.memories (u, k, s)
          = PyDict.get st.memories (u, k, s))
    ∧ (∀ (st : InMemoryStorage) (sid : Option String),
        PyDict.get (InMemorySessionStorage.save_memory st u k v sid).1.memories
          (u, k, sid.getD "") = some v) := by
  refine ⟨?_, ?_, ?_, ?_⟩
  · intro st s hs hnodup
    rw [get_memory_lookup]
    exact memLastVal_insert_session u k v s st.memories hs hnodup
  · intro st hnodup hnosess
    rw [get_memory_lookup]
    exact memLastVal_insert_global u k v st.memories hnodup hnosess
  · intro st s hs
    have hne1 : (u, k, "") ≠ (u, k, s) := by
      intro hh
      apply hs
      have := congrArg (fun t : String × String × String => t.2.2) hh
      simpa using this.symm
    have hne2 : (u, k, s) ≠ (u, k, "") := fun hh => hne1 hh.symm
    constructor
    · exact PyDict.get_insert_ne st.memories (u, k, s) (u, k, "") v hne1
    · exact PyDict.get_insert_ne st.memories (u, k, "") (u, k, s) v hne2
  · intro st sid
    exact PyDict.get_insert_self st.memories (u, k, sid.getD "") v

/-- C9 witness: the spec's allergy example — a session-scoped and a global
round-trip on disjoint slots, plus replacement. -/
theorem C9_amended_memory_roundtrip_witness :
    PyDict.get
      (InMemorySessionStorage.get_memory
        (InMemorySessionStorage.save_memory ⟨[], [], []⟩ "u" "allergies"
          "[\x22penicillin\x22,\x22latex\x22]" (some "sess")).1
        "u" (some "allergies") (some "sess"))
      "allergies" = some "[\x22penicillin\x22,\x22latex\x22]"
    ∧ PyDict.get
      (InMemorySessionStorage.get_memory
        (InMemorySessionStorage.save_memory ⟨[], [], [(("u", "allergies", "sess"), "s1")]⟩
          "u" "other" "[\x22penicillin\x22,\x22latex\x22]" none).1
        "u" (some "other") none)
      "other" = some "[\x22penicillin\x22,\x22latex\x22]"
    ∧ PyDict.get
        (InMemorySessionStorage.save_memory ⟨[], [], [(("u", "k", ""), "old")]⟩
          "u" "k" "new" (some "sess")).1.memories ("u", "k", "") = some "old"
    ∧ PyDict.get
        (InMemorySessionStorage.save_memory ⟨[], [], [(("u", "k", ""), "old")]⟩
          "u" "k" "new" none).1.memories ("u", "k", "") = some "new" := by
  refine ⟨?_, ?_, ?_, ?_⟩
  · exact (C9_amended_memory_roundtrip "u" "allergies" "[\x22penicillin\x22,\x22latex\x22]").1
      ⟨[], [], []⟩ "sess" (by decide) (by simp [PyDict.keys])
  · exact (C9_amended_memory_roundtrip "u" "other" "[\x22penicillin\x22,\x22latex\x22]").2.1
      ⟨[], [], [(("u", "allergies", "sess"), "s1")]⟩ (by simp [PyDict.keys])
      (by
        intro s hs hmem
        simp [PyDict.keys] at hmem)
  · exact ((C9_amended_memory_roundtrip "u" "k" "new").2.2.1
      ⟨[], [], [(("u", "k", ""), "old")]⟩ "sess" (by decide)).1
  · have h := (C9_amended_memory_roundtrip "u" "k" "new").2.2.2
      ⟨[], [], [(("u", "k", ""), "old")]⟩ none
    simpa using h

/-- C10, confirmed: `get_memory` with an omitted session_id applies no scope
filter at all — every entry of the user, session-scoped or global, reaches
the single key-indexed result map — and on a store holding both a global and
a (later-inserted) session-scoped value for the same key, the session-scoped
value occupies the result slot even though a distinct global value exists. -/
theorem C10_get_memory_merges_all_scopes :
    (∀ (st : InMemoryStorage) (u k s v : String),
      ((u, k, s), v) ∈ st.memories →
      (PyDict.get (InMemorySessionStorage.get_memory st u none none) k).isSome = true)
    ∧ InMemorySessionStorage.get_memory
        ⟨[], [], [(("u", "allergies", ""), "g0"), (("u", "allergies", "sess"), "s1")]⟩
        "u" none none
      = [("allergies", "s1")]
    ∧ ("s1" : String) ≠ "g0" := by
  refine ⟨?_, rfl, by decide⟩
  intro st u k s v hmem
  rw [get_memory_lookup]
  have : ∀ (l : List ((String × String × String) × String)),
      ((u, k, s), v) ∈ l → (memLastVal u none none l k).isSome = true := by
    intro l
    induction l with
    | nil => intro h; simp at h
    | cons e rest ih =>
      intro h
      rcases List.mem_cons.mp h with h | h
      · simp only [memLastVal]
        cases hrest : memLastVal u none none rest k with
        | some w => simp
        | none =>
          have hpass : memPass u none none e = true := by
            rw [← h]
            unfold memPass filterSkip
            simp
          have hk : e.1.2.1 == k := by
            rw [← h]
            simp
          simp [hpass, hk]
      · have := ih h
        simp only [memLastVal]
        cases hrest : memLastVal u none none rest k with
        | some w => simp
        | none => rw [hrest] at this; simp at this
  exact this st.memories hmem

/-- C10 witness: the inclusion conjunct applied to a store where the only
entry is session-scoped: an omitted session_id still returns it. -/
theorem C10_get_memory_merges_all_scopes_witness :
    (PyDict.get
      (InMemorySessionStorage.get_memory ⟨[], [], [(("u", "k", "sess"), "v")]⟩ "u" none none)
      "k").isSome = true := by
  exact C10_get_memory_merges_all_scopes.1 ⟨[], [], [(("u", "k", "sess"), "v")]⟩
    "u" "k" "sess" "v" (by simp)

end GenaiPlatform
